import Mathlib

/-!
Shallow embedding of the pre-flight dependency checker
(`dependency_checker.py` and `async_preflight_tool.py`).

Python values that can reach the checker's entry points are modelled by
`PyVal`; strings are modelled as `List Char`.  Host behaviour (which
package-manager executables exist, how their query commands exit, whether
spawning/waiting raises) is modelled by an oracle `Host`; the Python
module-resolution mechanism (`importlib.util.find_spec`) by an oracle
`Resolver`.
-/

/-- A Python value as it may occur as an entry of an input batch: a string,
or one of the representative non-string values the repository's tests
exercise (`None`, ints, bools).  Strings are carried as `List Char`. -/
inductive PyVal where
  | str (s : List Char)
  | int (n : Int)
  | bool (b : Bool)
  | none
deriving Repr, DecidableEq

/-- A Python value passed as one of the two arguments of
`verify_dependencies`: either a list of values, or some non-list value
(the code's `isinstance(x, list)` guard only distinguishes these). -/
inductive PyArg where
  | list (xs : List PyVal)
  | scalar (v : PyVal)
deriving Repr, DecidableEq

/-- Python exceptions relevant to the checker's `try`/`except` clauses. -/
inductive PyExn where
  | permissionError
  | osError
  | importError
  | valueError
  | moduleNotFoundError
  | attributeError
deriving Repr, DecidableEq

/-- ASCII whitespace stripped by Python's `str.strip()` (the embedding
restricts itself to ASCII: space, tab, newline, carriage return, vertical
tab, form feed). -/
def isPySpace (c : Char) : Bool :=
  c = ' ' || c = '\t' || c = '\n' || c = '\r' || c = '\x0b' || c = '\x0c'

/-- Python `str.strip()`: drop leading and trailing whitespace. -/
def pyStrip (l : List Char) : List Char :=
  ((l.dropWhile isPySpace).reverse.dropWhile isPySpace).reverse

/-- A character of the allow-list `[a-zA-Z0-9._+-]` of the validation
pattern in `_validate_package_name`. -/
def allowedChar (c : Char) : Bool :=
  ('a' ≤ c && c ≤ 'z') || ('A' ≤ c && c ≤ 'Z') || ('0' ≤ c && c ≤ '9')
    || c = '.' || c = '_' || c = '+' || c = '-'

/-- Python `re` quirk: in a pattern without `re.MULTILINE`, `$` also
matches just before one newline at the very end of the string.  So before
testing the character class we may discard one trailing newline. -/
def dropFinalNewline (l : List Char) : List Char :=
  if l.getLast? = some '\n' then l.dropLast else l

/-- Truth of `re.match(r'^[a-zA-Z0-9._+-]+$', l)` for the whole string `l`
(anchored at the start by `re.match`, at the end by `$` with its
trailing-newline quirk; `+` demands at least one character). -/
def reMatchPkgPattern (l : List Char) : Bool :=
  let core := dropFinalNewline l
  !core.isEmpty && core.all allowedChar

/-- Embeds `_validate_package_name` (identical in `DependencyChecker` and
`AsyncDependencyChecker`): reject falsy or non-string input, then match
the stripped string against `^[a-zA-Z0-9._+-]+$`. -/
def validate_package_name : PyVal → Bool
  | PyVal.str s => if s = [] then false else reMatchPkgPattern (pyStrip s)
  | _ => false

/-- The four package-manager backends, in the order the code tries them. -/
inductive Backend where
  | dpkg
  | rpm
  | apk
  | yum
deriving Repr, DecidableEq

/-- The fixed priority order of the backend attempts in
`check_system_package`: dpkg, rpm, apk, yum. -/
def backendOrder : List Backend := [Backend.dpkg, Backend.rpm, Backend.apk, Backend.yum]

/-- The fixed argument vector of one backend's query command, with the
(already stripped) package name inserted as a single opaque token. -/
def backendArgv : Backend → List Char → List (List Char)
  | Backend.dpkg, n => ["dpkg".data, "-s".data, n]
  | Backend.rpm, n => ["rpm".data, "-q".data, n]
  | Backend.apk, n => ["apk".data, "info".data, "-e".data, n]
  | Backend.yum, n => ["yum".data, "list".data, "installed".data, n]

/-- Outcome of one attempt to run a backend's query command:
it ran to completion with some exit code; the executable was absent
(`FileNotFoundError`); the 10-second timeout expired
(`subprocess.TimeoutExpired` / `asyncio.TimeoutError`); or some other
exception was raised while spawning or waiting (for example
`PermissionError`). -/
inductive ProbeResult where
  | completed (exitCode : Int)
  | fileNotFound
  | timedOut
  | raised (e : PyExn)
deriving Repr, DecidableEq

/-- A host configuration: what happens when a given backend's query
command is attempted for a given (stripped) package name. -/
def Host : Type := Backend → List Char → ProbeResult

/-- Whether the spawned child process is still running once the probe has
resolved, in the synchronous variant (modelling the documented behaviour
of `subprocess.run` with `timeout=10`: on expiry it kills the child and
waits for it before re-raising `TimeoutExpired`, and in the other
outcomes the child has already exited or was never spawned). -/
def syncProbeChildRunningAfter : ProbeResult → Bool
  | _ => false

/-- Whether the spawned child process is still running once the probe has
resolved, in the asynchronous variant (modelling the documented behaviour
of `asyncio.wait_for(process.wait(), timeout=10)`: on expiry it cancels
the `wait()` task and raises `asyncio.TimeoutError`, but sends no signal
to the child, which keeps running). -/
def asyncProbeChildRunningAfter : ProbeResult → Bool
  | ProbeResult.timedOut => true
  | _ => false

/-- A probe attempt that ends in `FileNotFoundError` or in a timeout; the
code's `except` clauses swallow exactly these and fall through to the
next backend. -/
def isUnavailable : ProbeResult → Bool
  | ProbeResult.fileNotFound => true
  | ProbeResult.timedOut => true
  | _ => false

/-- The backend-attempt cascade of `check_system_package` over a list of
backends, for an already stripped name `n`.  Returns the result
(`Except.error e` when an uncaught exception propagates) together with
the trace of attempted invocations `(backend, name argument)`, in order.
Mirrors the four consecutive `try` blocks: a completed run returns
`returncode == 0` at once; `FileNotFoundError` and timeout fall through;
any other exception propagates. -/
def runBackends (h : Host) (n : List Char) :
    List Backend → Except PyExn Bool × List (Backend × List Char)
  | [] => (Except.ok false, [])
  | b :: rest =>
    match h b n with
    | ProbeResult.completed code => (Except.ok (code == 0), [(b, n)])
    | ProbeResult.fileNotFound =>
        let r := runBackends h n rest
        (r.1, (b, n) :: r.2)
    | ProbeResult.timedOut =>
        let r := runBackends h n rest
        (r.1, (b, n) :: r.2)
    | ProbeResult.raised e => (Except.error e, [(b, n)])

/-- Embeds `check_system_package` (the control flow is the same in
`DependencyChecker` and `AsyncDependencyChecker`): re-validate the input,
returning `False` with no subprocess attempt on failure; otherwise strip
the name and try the backends in the fixed order.  The second component
is the trace of attempted backend invocations. -/
def check_system_package (h : Host) (v : PyVal) :
    Except PyExn Bool × List (Backend × List Char) :=
  match v with
  | PyVal.str s =>
      if validate_package_name (PyVal.str s) then runBackends h (pyStrip s) backendOrder
      else (Except.ok false, [])
  | _ => (Except.ok false, [])

/-- Outcome of `importlib.util.find_spec` on a (stripped) module name: a
specification was found, none was found, or the call raised. -/
inductive SpecResult where
  | found
  | notFound
  | raised (e : PyExn)
deriving Repr, DecidableEq

/-- A module-resolution configuration of the host's Python runtime: what
`find_spec` does on a given (stripped) module name. -/
def Resolver : Type := List Char → SpecResult

/-- The exception types caught by `check_python_package`'s `except`
clause: `ImportError`, `ValueError`, `ModuleNotFoundError`. -/
def caughtByFindSpec : PyExn → Bool
  | PyExn.importError => true
  | PyExn.valueError => true
  | PyExn.moduleNotFoundError => true
  | _ => false

/-- Embeds `check_python_package` (same in both variants): re-validate,
returning `False` without touching the resolver on failure; otherwise ask
the resolver for the stripped name; a raised `ImportError`, `ValueError`
or `ModuleNotFoundError` yields `False`, any other exception propagates.
The second component records whether the resolver was queried at all. -/
def check_python_package (res : Resolver) (v : PyVal) :
    Except PyExn Bool × Bool :=
  match v with
  | PyVal.str s =>
      if validate_package_name (PyVal.str s) then
        match res (pyStrip s) with
        | SpecResult.found => (Except.ok true, true)
        | SpecResult.notFound => (Except.ok false, true)
        | SpecResult.raised e =>
            (if caughtByFindSpec e then Except.ok false else Except.error e, true)
      else (Except.ok false, false)
  | _ => (Except.ok false, false)

/-- The batch report: the four categorised lists that
`verify_dependencies` computes and renders (`missing_sys`, `missing_py`,
`invalid_sys`, `invalid_py`, each holding the original input entries in
filtered input order). -/
structure Report where
  missing_sys : List PyVal
  missing_py : List PyVal
  invalid_sys : List PyVal
  invalid_py : List PyVal
deriving Repr, DecidableEq

/-- The input-normalisation guard of `verify_dependencies`:
`if not isinstance(x, list): x = []`. -/
def normalizeInput : PyArg → List PyVal
  | PyArg.list xs => xs
  | PyArg.scalar _ => []

/-- Whether an argument is a Python list (`isinstance(x, list)`). -/
def isList : PyArg → Bool
  | PyArg.list _ => true
  | PyArg.scalar _ => false

/-- The sequential system-package pass of the synchronous
`verify_dependencies`: the list comprehension
`[pkg for pkg in valid if not check_system_package(pkg)]` runs the checks
left to right; the first uncaught exception aborts the comprehension.
Also accumulates the subprocess-invocation trace (up to and including the
erroring probe). -/
def checkListSys (h : Host) :
    List PyVal → Except PyExn (List PyVal) × List (Backend × List Char)
  | [] => (Except.ok [], [])
  | p :: ps =>
    let c := check_system_package h p
    match c.1 with
    | Except.error e => (Except.error e, c.2)
    | Except.ok b =>
      let rest := checkListSys h ps
      match rest.1 with
      | Except.error e => (Except.error e, c.2 ++ rest.2)
      | Except.ok l => (Except.ok (if b then l else p :: l), c.2 ++ rest.2)

/-- The Python-package pass of `verify_dependencies` (same comprehension
shape in both variants): checks run left to right; the first uncaught
exception aborts. -/
def checkListPy (res : Resolver) : List PyVal → Except PyExn (List PyVal)
  | [] => Except.ok []
  | p :: ps =>
    match (check_python_package res p).1 with
    | Except.error e => Except.error e
    | Except.ok b =>
      match checkListPy res ps with
      | Except.error e => Except.error e
      | Except.ok l => Except.ok (if b then l else p :: l)

/-- The result-aggregation loop of the asynchronous
`verify_dependencies`: walk the positions of `valid_sys_packages`
together with the results delivered by
`asyncio.gather(*tasks, return_exceptions=True)` (in task order); a
result that is an exception, or `False`, records the name as missing. -/
def collectMissing : List PyVal → List (Except PyExn Bool) → List PyVal
  | p :: ps, r :: rs =>
    match r with
    | Except.ok true => collectMissing ps rs
    | Except.ok false => p :: collectMissing ps rs
    | Except.error _ => p :: collectMissing ps rs
  | _, _ => []

/-- Embeds the synchronous `DependencyChecker.verify_dependencies`:
normalise non-list inputs to `[]`, filter by the validator, run the
system checks sequentially (an uncaught exception propagates), then the
Python checks, and assemble the report; the invalid lists are the
order-preserving filters of the raw inputs.  The second component is the
trace of attempted subprocess invocations. -/
def verify_dependencies (h : Host) (res : Resolver) (sysv pyv : PyArg) :
    Except PyExn Report × List (Backend × List Char) :=
  let sys := normalizeInput sysv
  let py := normalizeInput pyv
  let cs := checkListSys h (sys.filter validate_package_name)
  match cs.1 with
  | Except.error e => (Except.error e, cs.2)
  | Except.ok missingSys =>
    match checkListPy res (py.filter validate_package_name) with
    | Except.error e => (Except.error e, cs.2)
    | Except.ok missingPy =>
      (Except.ok
        { missing_sys := missingSys
          missing_py := missingPy
          invalid_sys := sys.filter (fun q => !validate_package_name q)
          invalid_py := py.filter (fun q => !validate_package_name q) }, cs.2)

/-- Embeds the asynchronous
`AsyncDependencyChecker.verify_dependencies`: normalise, filter, fan the
system checks out with `asyncio.gather(..., return_exceptions=True)`
(every task runs to completion and delivers its result — or its
exception — at its own position), fold the results back in input order
via `collectMissing`, then run the Python checks (whose uncaught
exceptions still propagate) and assemble the report. -/
def async_verify_dependencies (h : Host) (res : Resolver) (sysv pyv : PyArg) :
    Except PyExn Report × List (Backend × List Char) :=
  let sys := normalizeInput sysv
  let py := normalizeInput pyv
  let validSys := sys.filter validate_package_name
  let missingSys := collectMissing validSys (validSys.map (fun p => (check_system_package h p).1))
  let tr := (validSys.map (fun p => (check_system_package h p).2)).flatten
  match checkListPy res (py.filter validate_package_name) with
  | Except.error e => (Except.error e, tr)
  | Except.ok missingPy =>
    (Except.ok
      { missing_sys := missingSys
        missing_py := missingPy
        invalid_sys := sys.filter (fun q => !validate_package_name q)
        invalid_py := py.filter (fun q => !validate_package_name q) }, tr)

/-- A wall-clock oracle: how many time units the probe of one backend for
one (stripped) name takes before it resolves (for a timed-out probe this
is the 10-unit timeout; for a missing executable it is the immediate
`FileNotFoundError`). -/
def Dur : Type := Backend → List Char → Nat

/-- Elapsed wall-clock time of the backend cascade for one name: the
probes of one `check_system_package` call run strictly one after the
other in both variants, stopping where the cascade stops. -/
def backendsDuration (h : Host) (d : Dur) (n : List Char) : List Backend → Nat
  | [] => 0
  | b :: rest =>
    match h b n with
    | ProbeResult.completed _ => d b n
    | ProbeResult.raised _ => d b n
    | ProbeResult.fileNotFound => d b n + backendsDuration h d n rest
    | ProbeResult.timedOut => d b n + backendsDuration h d n rest

/-- Elapsed wall-clock time of one `check_system_package` call (an
invalid name costs nothing: no subprocess is attempted). -/
def checkSysDuration (h : Host) (d : Dur) (v : PyVal) : Nat :=
  match v with
  | PyVal.str s =>
      if validate_package_name (PyVal.str s) then backendsDuration h d (pyStrip s) backendOrder
      else 0
  | _ => 0

/-- Wall-clock time of the system-package pass of the synchronous
`verify_dependencies`: the list comprehension runs the per-package
checks strictly one after the other, so the elapsed times add up. -/
def syncBatchSysDuration (h : Host) (d : Dur) (sysv : PyArg) : Nat :=
  ((normalizeInput sysv).filter validate_package_name).foldr
    (fun p acc => checkSysDuration h d p + acc) 0

/-- Wall-clock time of the system-package pass of the asynchronous
`verify_dependencies` (modelling `asyncio.gather`: the per-package tasks
run concurrently, each blocking only in its own child-process waits, so
the batch resolves when the slowest task does). -/
def asyncBatchSysDuration (h : Host) (d : Dur) (sysv : PyArg) : Nat :=
  ((normalizeInput sysv).filter validate_package_name).foldr
    (fun p acc => max (checkSysDuration h d p) acc) 0

/-- A host with no package manager installed: every probe raises
`FileNotFoundError`. -/
def hostAllMissing : Host := fun _ _ => ProbeResult.fileNotFound

/-- A host whose `dpkg` hangs past the 10-unit timeout while the other
three backends are absent. -/
def hostDpkgHangs : Host := fun b _ =>
  match b with
  | Backend.dpkg => ProbeResult.timedOut
  | _ => ProbeResult.fileNotFound

/-- A host whose `dpkg` exists but cannot be executed: the spawn attempt
raises `PermissionError`, an exception the code does not catch. -/
def hostDpkgPermDenied : Host := fun b _ =>
  match b with
  | Backend.dpkg => ProbeResult.raised PyExn.permissionError
  | _ => ProbeResult.fileNotFound

/-- A host whose `dpkg` is absent and whose `rpm` reports every queried
package as installed (exit code 0). -/
def hostRpmInstalled : Host := fun b _ =>
  match b with
  | Backend.rpm => ProbeResult.completed 0
  | _ => ProbeResult.fileNotFound

/-- A Python runtime in which no module specification is ever found. -/
def resolverNone : Resolver := fun _ => SpecResult.notFound

/-- Probe durations matching `hostDpkgHangs`: the hanging `dpkg` probe
costs the full 10-unit timeout, the immediate `FileNotFoundError` of the
other backends costs nothing. -/
def durDpkgHangs : Dur := fun b _ =>
  match b with
  | Backend.dpkg => 10
  | _ => 0

/-!  Helper lemmas about stripping and the validator.  -/

lemma dropWhile_eq_self_of_head? (p : Char → Bool) (l : List Char)
    (h : ∀ c, l.head? = some c → p c = false) : l.dropWhile p = l := by
  cases l with
  | nil => rfl
  | cons a t =>
    have ha : p a = false := h a rfl
    simp [List.dropWhile, ha]

lemma head?_dropWhile_false (p : Char → Bool) (l : List Char) :
    ∀ c, (l.dropWhile p).head? = some c → p c = false := by
  induction l with
  | nil => intro c hc; simp [List.dropWhile] at hc
  | cons a t ih =>
    intro c hc
    by_cases ha : p a = true
    · rw [List.dropWhile_cons_of_pos ha] at hc
      exact ih c hc
    · rw [List.dropWhile_cons_of_neg ha] at hc
      simp at hc
      subst hc
      simpa using ha

lemma mem_dropWhile_of_false (p : Char → Bool) (l : List Char) (c : Char)
    (hc : p c = false) (h : c ∈ l) : c ∈ l.dropWhile p := by
  rw [← List.takeWhile_append_dropWhile p l, List.mem_append] at h
  rcases h with h1 | h2
  · have := List.mem_takeWhile_imp h1
    rw [hc] at this
    cases this
  · exact h2

/-- A non-whitespace character of `l` survives `pyStrip`. -/
lemma mem_pyStrip (l : List Char) (c : Char) (hc : isPySpace c = false)
    (h : c ∈ l) : c ∈ pyStrip l := by
  unfold pyStrip
  rw [List.mem_reverse]
  apply mem_dropWhile_of_false _ _ _ hc
  rw [List.mem_reverse]
  exact mem_dropWhile_of_false _ _ _ hc h

/-- The last character of a stripped string is not whitespace. -/
lemma getLast?_pyStrip_false (l : List Char) :
    ∀ c, (pyStrip l).getLast? = some c → isPySpace c = false := by
  intro c hc
  unfold pyStrip at hc
  rw [List.getLast?_reverse] at hc
  exact head?_dropWhile_false _ _ c hc

/-- The first character of a stripped string is not whitespace. -/
lemma head?_pyStrip_false (l : List Char) :
    ∀ c, (pyStrip l).head? = some c → isPySpace c = false := by
  intro c hc
  unfold pyStrip at hc
  rw [List.head?_reverse] at hc
  set Y := (l.dropWhile isPySpace).reverse.dropWhile isPySpace with hY
  have hsuf : Y.IsSuffix (l.dropWhile isPySpace).reverse := List.dropWhile_suffix isPySpace
  obtain ⟨pre, hpre⟩ := hsuf
  have hYne : Y ≠ [] := by
    intro h0
    rw [h0] at hc
    simp at hc
  have h3 : ((l.dropWhile isPySpace).reverse).getLast? = some c := by
    rw [← hpre, List.getLast?_append_of_ne_nil _ hYne]
    exact hc
  rw [List.getLast?_reverse] at h3
  exact head?_dropWhile_false _ _ c h3

/-- Stripping a string whose two ends are not whitespace changes
nothing. -/
lemma pyStrip_eq_self (l : List Char)
    (hh : ∀ c, l.head? = some c → isPySpace c = false)
    (hl : ∀ c, l.getLast? = some c → isPySpace c = false) : pyStrip l = l := by
  unfold pyStrip
  rw [dropWhile_eq_self_of_head? _ _ hh]
  rw [dropWhile_eq_self_of_head? _ _ (fun c hc => hl c (by rwa [List.head?_reverse] at hc))]
  exact l.reverse_reverse

/-- Python's `strip` is idempotent. -/
lemma pyStrip_idem (l : List Char) : pyStrip (pyStrip l) = pyStrip l :=
  pyStrip_eq_self _ (head?_pyStrip_false l) (getLast?_pyStrip_false l)

/-- A stripped string never ends in a newline, so the `$`-before-newline
quirk of the pattern is vacuous after stripping. -/
lemma dropFinalNewline_pyStrip (l : List Char) :
    dropFinalNewline (pyStrip l) = pyStrip l := by
  unfold dropFinalNewline
  cases hgl : (pyStrip l).getLast? with
  | none => simp
  | some c =>
    have hc := getLast?_pyStrip_false l c hgl
    have hne : c ≠ '\n' := by
      intro h
      subst h
      simp [isPySpace] at hc
    simp [hne]

/-- The validator on a string input, characterised: it accepts exactly
when the stripped string is non-empty and made of allowed characters. -/
lemma validate_str_iff (s : List Char) :
    validate_package_name (PyVal.str s) = true ↔
      pyStrip s ≠ [] ∧ (pyStrip s).all allowedChar = true := by
  have he : validate_package_name (PyVal.str s)
      = (if s = [] then false
         else !(dropFinalNewline (pyStrip s)).isEmpty
              && (dropFinalNewline (pyStrip s)).all allowedChar) := rfl
  rw [he, dropFinalNewline_pyStrip]
  by_cases hs : s = []
  · subst hs
    simp [pyStrip]
  · rw [if_neg hs]
    simp only [Bool.and_eq_true, Bool.not_eq_true']
    constructor
    · rintro ⟨h1, h2⟩
      refine ⟨?_, h2⟩
      intro h0
      rw [h0] at h1
      simp at h1
    · rintro ⟨h1, h2⟩
      refine ⟨?_, h2⟩
      cases hE : (pyStrip s).isEmpty
      · rfl
      · exact absurd (List.isEmpty_iff.mp hE) h1

/-- Only string values can be accepted by the validator. -/
lemma validate_eq_true_str (v : PyVal) (h : validate_package_name v = true) :
    ∃ s, v = PyVal.str s := by
  cases v with
  | str s => exact ⟨s, rfl⟩
  | int n => simp [validate_package_name] at h
  | bool b => simp [validate_package_name] at h
  | none => simp [validate_package_name] at h

/-- A name accepted by the validator still passes it once stripped (the
stripped form is what reaches the subprocess boundary). -/
lemma validate_pyStrip (s : List Char)
    (h : validate_package_name (PyVal.str s) = true) :
    validate_package_name (PyVal.str (pyStrip s)) = true := by
  rw [validate_str_iff] at h ⊢
  rw [pyStrip_idem]
  exact h

/-- The shell metacharacters singled out by the specification:
semicolon, pipe, ampersand, backquote (character 96), dollar. -/
def shellMetaChars : List Char := [';', '|', '&', Char.ofNat 96, '$']

/-- Whether an `Except` result is a normal (non-exception) return. -/
def exceptIsOk : Except PyExn Bool → Bool
  | Except.ok _ => true
  | Except.error _ => false

/-- Whether an `Except` result is a normal return of `True`. -/
def isOkTrue : Except PyExn Bool → Bool
  | Except.ok true => true
  | _ => false

/-!  Helper lemmas about the backend cascade.  -/

lemma check_system_package_valid (h : Host) (s : List Char)
    (hv : validate_package_name (PyVal.str s) = true) :
    check_system_package h (PyVal.str s) = runBackends h (pyStrip s) backendOrder := by
  simp [check_system_package, hv]

lemma runBackends_skip_unavail (h : Host) (n : List Char) (pre rest : List Backend)
    (hpre : ∀ b ∈ pre, isUnavailable (h b n) = true) :
    runBackends h n (pre ++ rest)
      = ((runBackends h n rest).1,
         pre.map (fun b => (b, n)) ++ (runBackends h n rest).2) := by
  induction pre with
  | nil => simp
  | cons b t ih =>
    have hb := hpre b (List.mem_cons_self b t)
    have ht : ∀ x ∈ t, isUnavailable (h x n) = true :=
      fun x hx => hpre x (List.mem_cons_of_mem b hx)
    cases hx : h b n with
    | completed code => rw [hx] at hb; simp [isUnavailable] at hb
    | raised e => rw [hx] at hb; simp [isUnavailable] at hb
    | fileNotFound => simp [List.cons_append, runBackends, hx, ih ht]
    | timedOut => simp [List.cons_append, runBackends, hx, ih ht]

lemma runBackends_trace_name (h : Host) (n : List Char) :
    ∀ bs, ∀ e ∈ (runBackends h n bs).2, e.2 = n := by
  intro bs
  induction bs with
  | nil => intro e he; simp [runBackends] at he
  | cons b t ih =>
    intro e he
    cases hx : h b n with
    | completed code =>
        simp [runBackends, hx] at he
        rw [he]
    | raised ex =>
        simp [runBackends, hx] at he
        rw [he]
    | fileNotFound =>
        simp [runBackends, hx] at he
        rcases he with he | he
        · rw [he]
        · exact ih e he
    | timedOut =>
        simp [runBackends, hx] at he
        rcases he with he | he
        · rw [he]
        · exact ih e he

lemma runBackends_isOk_of_no_raise (h : Host) (n : List Char)
    (hnr : ∀ b e, h b n ≠ ProbeResult.raised e) :
    ∀ bs, exceptIsOk (runBackends h n bs).1 = true := by
  intro bs
  induction bs with
  | nil => rfl
  | cons b t ih =>
    cases hx : h b n with
    | completed code => simp [runBackends, hx, exceptIsOk]
    | fileNotFound => simpa [runBackends, hx] using ih
    | timedOut => simpa [runBackends, hx] using ih
    | raised e => exact absurd hx (hnr b e)

/-!  Helper lemmas about the two batch orchestrators.  -/

lemma checkListSys_cons (h : Host) (p : PyVal) (t : List PyVal) :
    checkListSys h (p :: t)
      = (match (check_system_package h p).1 with
         | Except.error e => (Except.error e, (check_system_package h p).2)
         | Except.ok b =>
           match (checkListSys h t).1 with
           | Except.error e =>
               (Except.error e, (check_system_package h p).2 ++ (checkListSys h t).2)
           | Except.ok l =>
               (Except.ok (if b then l else p :: l),
                (check_system_package h p).2 ++ (checkListSys h t).2)) := rfl

lemma checkListSys_ok_filter (h : Host) :
    ∀ (ps : List PyVal) (l : List PyVal), (checkListSys h ps).1 = Except.ok l →
      l = ps.filter (fun p => !isOkTrue (check_system_package h p).1) := by
  intro ps
  induction ps with
  | nil =>
    intro l hl
    simp [checkListSys] at hl
    subst hl
    rfl
  | cons p t ih =>
    intro l hl
    rw [checkListSys_cons] at hl
    cases hc : (check_system_package h p).1 with
    | error e => simp [hc] at hl
    | ok b =>
      simp only [hc] at hl
      cases hr : (checkListSys h t).1 with
      | error e => simp [hr] at hl
      | ok l2 =>
        simp only [hr] at hl
        simp at hl
        have ht := ih l2 hr
        cases b with
        | true =>
          simp at hl
          rw [← hl, List.filter_cons, ht]
          simp [hc, isOkTrue]
        | false =>
          simp at hl
          rw [← hl, List.filter_cons, ht]
          simp [hc, isOkTrue]

lemma checkListSys_trace_mem (h : Host) :
    ∀ (ps : List PyVal) (e : Backend × List Char), e ∈ (checkListSys h ps).2 →
      ∃ q ∈ ps, e ∈ (check_system_package h q).2 := by
  intro ps
  induction ps with
  | nil => intro e he; simp [checkListSys] at he
  | cons p t ih =>
    intro e he
    rw [checkListSys_cons] at he
    cases hc : (check_system_package h p).1 with
    | error ex =>
      rw [hc] at he
      exact ⟨p, List.mem_cons_self p t, he⟩
    | ok b =>
      rw [hc] at he
      cases hr : (checkListSys h t).1 with
      | error ex =>
        rw [hr] at he
        simp at he
        rcases he with he | he
        · exact ⟨p, List.mem_cons_self p t, he⟩
        · obtain ⟨q, hq, hqe⟩ := ih e he
          exact ⟨q, List.mem_cons_of_mem p hq, hqe⟩
      | ok l =>
        rw [hr] at he
        simp at he
        rcases he with he | he
        · exact ⟨p, List.mem_cons_self p t, he⟩
        · obtain ⟨q, hq, hqe⟩ := ih e he
          exact ⟨q, List.mem_cons_of_mem p hq, hqe⟩

lemma checkListSys_error_at (h : Host) :
    ∀ (pre : List PyVal) (p : PyVal) (post : List PyVal) (e : PyExn),
      (∀ q ∈ pre, exceptIsOk (check_system_package h q).1 = true) →
      (check_system_package h p).1 = Except.error e →
      (checkListSys h (pre ++ p :: post)).1 = Except.error e := by
  intro pre
  induction pre with
  | nil =>
    intro p post e _ hp
    rw [List.nil_append, checkListSys_cons]
    simp [hp]
  | cons q t ih =>
    intro p post e hpre hp
    have hq := hpre q (List.mem_cons_self q t)
    cases hcq : (check_system_package h q).1 with
    | error ex => rw [hcq] at hq; simp [exceptIsOk] at hq
    | ok b =>
      have hrec := ih p post e (fun x hx => hpre x (List.mem_cons_of_mem q hx)) hp
      rw [List.cons_append, checkListSys_cons]
      simp [hcq, hrec]

lemma checkListPy_cons (res : Resolver) (p : PyVal) (t : List PyVal) :
    checkListPy res (p :: t)
      = (match (check_python_package res p).1 with
         | Except.error e => Except.error e
         | Except.ok b =>
           match checkListPy res t with
           | Except.error e => Except.error e
           | Except.ok l => Except.ok (if b then l else p :: l)) := rfl

lemma checkListPy_ok_filter (res : Resolver) :
    ∀ (ps : List PyVal) (l : List PyVal), checkListPy res ps = Except.ok l →
      l = ps.filter (fun p => !isOkTrue (check_python_package res p).1) := by
  intro ps
  induction ps with
  | nil =>
    intro l hl
    simp [checkListPy] at hl
    subst hl
    rfl
  | cons p t ih =>
    intro l hl
    rw [checkListPy_cons] at hl
    cases hc : (check_python_package res p).1 with
    | error e => simp [hc] at hl
    | ok b =>
      simp only [hc] at hl
      cases hr : checkListPy res t with
      | error e => simp [hr] at hl
      | ok l2 =>
        simp only [hr] at hl
        simp at hl
        have ht := ih l2 hr
        cases b with
        | true =>
          simp at hl
          rw [← hl, List.filter_cons, ht]
          simp [hc, isOkTrue]
        | false =>
          simp at hl
          rw [← hl, List.filter_cons, ht]
          simp [hc, isOkTrue]

lemma collectMissing_map (f : PyVal → Except PyExn Bool) :
    ∀ ps : List PyVal, collectMissing ps (ps.map f)
      = ps.filter (fun p => !isOkTrue (f p)) := by
  intro ps
  induction ps with
  | nil => rfl
  | cons p t ih =>
    simp only [List.map_cons, List.filter_cons]
    cases hf : f p with
    | error e => simp [collectMissing, hf, isOkTrue, ih]
    | ok b => cases b <;> simp [collectMissing, hf, isOkTrue, ih]

lemma check_trace_validated (h : Host) (q : PyVal) :
    ∀ e ∈ (check_system_package h q).2, validate_package_name (PyVal.str e.2) = true := by
  intro e he
  cases q with
  | str s =>
    by_cases hv : validate_package_name (PyVal.str s) = true
    · rw [check_system_package_valid h s hv] at he
      have hn := runBackends_trace_name h (pyStrip s) backendOrder e he
      rw [hn]
      exact validate_pyStrip s hv
    · have hz : check_system_package h (PyVal.str s) = (Except.ok false, []) := by
        simp [check_system_package, Bool.not_eq_true] at hv ⊢
        simp [hv]
      rw [hz] at he
      simp at he
  | int n => simp [check_system_package] at he
  | bool b => simp [check_system_package] at he
  | none => simp [check_system_package] at he

lemma verify_dependencies_snd (h : Host) (res : Resolver) (sysv pyv : PyArg) :
    (verify_dependencies h res sysv pyv).2
      = (checkListSys h ((normalizeInput sysv).filter validate_package_name)).2 := by
  unfold verify_dependencies
  cases hcs : (checkListSys h ((normalizeInput sysv).filter validate_package_name)).1 with
  | error e => simp [hcs]
  | ok ms =>
    simp only [hcs]
    cases hpy : checkListPy res ((normalizeInput pyv).filter validate_package_name) with
    | error e => simp [hpy]
    | ok mp => simp [hpy]

lemma verify_dependencies_fst_ok (h : Host) (res : Resolver) (sysv pyv : PyArg)
    (r : Report) (hr : (verify_dependencies h res sysv pyv).1 = Except.ok r) :
    (checkListSys h ((normalizeInput sysv).filter validate_package_name)).1
      = Except.ok r.missing_sys ∧
    checkListPy res ((normalizeInput pyv).filter validate_package_name)
      = Except.ok r.missing_py ∧
    r.invalid_sys = (normalizeInput sysv).filter (fun q => !validate_package_name q) ∧
    r.invalid_py = (normalizeInput pyv).filter (fun q => !validate_package_name q) := by
  unfold verify_dependencies at hr
  cases hcs : (checkListSys h ((normalizeInput sysv).filter validate_package_name)).1 with
  | error e => simp [hcs] at hr
  | ok ms =>
    simp only [hcs] at hr
    cases hpy : checkListPy res ((normalizeInput pyv).filter validate_package_name) with
    | error e => simp [hpy] at hr
    | ok mp =>
      simp only [hpy] at hr
      simp at hr
      rw [← hr]
      exact ⟨rfl, rfl, rfl, rfl⟩

lemma verify_dependencies_fst_error (h : Host) (res : Resolver) (sysv pyv : PyArg)
    (e : PyExn)
    (he : (checkListSys h ((normalizeInput sysv).filter validate_package_name)).1
      = Except.error e) :
    (verify_dependencies h res sysv pyv).1 = Except.error e := by
  unfold verify_dependencies
  simp [he]

lemma async_verify_fst_ok (h : Host) (res : Resolver) (sysv pyv : PyArg)
    (r : Report) (hr : (async_verify_dependencies h res sysv pyv).1 = Except.ok r) :
    r.missing_sys
      = ((normalizeInput sysv).filter validate_package_name).filter
          (fun p => !isOkTrue (check_system_package h p).1) ∧
    checkListPy res ((normalizeInput pyv).filter validate_package_name)
      = Except.ok r.missing_py ∧
    r.invalid_sys = (normalizeInput sysv).filter (fun q => !validate_package_name q) ∧
    r.invalid_py = (normalizeInput pyv).filter (fun q => !validate_package_name q) := by
  unfold async_verify_dependencies at hr
  cases hpy : checkListPy res ((normalizeInput pyv).filter validate_package_name) with
  | error e => simp [hpy] at hr
  | ok mp =>
    simp only [hpy] at hr
    simp at hr
    rw [← hr]
    refine ⟨?_, rfl, rfl, rfl⟩
    exact collectMissing_map (fun p => (check_system_package h p).1) _

lemma async_verify_snd_mem (h : Host) (res : Resolver) (sysv pyv : PyArg)
    (e : Backend × List Char)
    (he : e ∈ (async_verify_dependencies h res sysv pyv).2) :
    ∃ q ∈ (normalizeInput sysv).filter validate_package_name,
      e ∈ (check_system_package h q).2 := by
  have hsnd : (async_verify_dependencies h res sysv pyv).2
      = (((normalizeInput sysv).filter validate_package_name).map
          (fun p => (check_system_package h p).2)).flatten := by
    unfold async_verify_dependencies
    cases hpy : checkListPy res ((normalizeInput pyv).filter validate_package_name) with
    | error ex => simp [hpy]
    | ok mp => simp [hpy]
  rw [hsnd] at he
  rw [List.mem_flatten] at he
  obtain ⟨l, hl, hel⟩ := he
  rw [List.mem_map] at hl
  obtain ⟨q, hq, rfl⟩ := hl
  exact ⟨q, hq, hel⟩

/-- C1 counterexample: the claim asserts the validator rejects any string
containing a space, but the code trims first, so the string made of a
space followed by the letters g, i, t — which does contain a space — is
accepted. -/
theorem c1_validator_counterexample :
    validate_package_name (PyVal.str (' ' :: 'g' :: 'i' :: 't' :: [])) = true ∧
    ' ' ∈ (' ' :: 'g' :: 'i' :: 't' :: []) := by
  exact ⟨by decide, by decide⟩

/-- C1 (amended): the validator accepts exactly the string values whose
stripped form is non-empty and made of characters in `[A-Za-z0-9._+-]`;
in particular it rejects the empty string, every non-string value, every
string containing a shell metacharacter, and every string whose stripped
form still contains whitespace — but a string whose only whitespace is
leading or trailing is accepted whenever its stripped core is valid. -/
theorem c1_validator_amended :
    (∀ v : PyVal, validate_package_name v = true ↔
        ∃ s, v = PyVal.str s ∧ pyStrip s ≠ [] ∧ (pyStrip s).all allowedChar = true) ∧
    (∀ (s : List Char) (c : Char), c ∈ shellMetaChars → c ∈ s →
        validate_package_name (PyVal.str s) = false) ∧
    (∀ (s : List Char) (c : Char), isPySpace c = true → c ∈ pyStrip s →
        validate_package_name (PyVal.str s) = false) := by
  refine ⟨?_, ?_, ?_⟩
  · intro v
    constructor
    · intro hv
      obtain ⟨s, rfl⟩ := validate_eq_true_str v hv
      rw [validate_str_iff] at hv
      exact ⟨s, rfl, hv.1, hv.2⟩
    · rintro ⟨s, rfl, h1, h2⟩
      rw [validate_str_iff]
      exact ⟨h1, h2⟩
  · intro s c hm hc
    have hprops : isPySpace c = false ∧ allowedChar c = false := by
      simp [shellMetaChars] at hm
      rcases hm with rfl | rfl | rfl | rfl | rfl <;> exact ⟨by decide, by decide⟩
    cases hval : validate_package_name (PyVal.str s) with
    | false => rfl
    | true =>
      rw [validate_str_iff] at hval
      have hmem := mem_pyStrip s c hprops.1 hc
      have := (List.all_eq_true.mp hval.2) c hmem
      rw [hprops.2] at this
      cases this
  · intro s c hsp hc
    have hal : allowedChar c = false := by
      simp [isPySpace] at hsp
      rcases hsp with ((((rfl | rfl) | rfl) | rfl) | rfl) | rfl <;> decide
    cases hval : validate_package_name (PyVal.str s) with
    | false => rfl
    | true =>
      rw [validate_str_iff] at hval
      have := (List.all_eq_true.mp hval.2) c hc
      rw [hal] at this
      cases this

/-- C1 witness: the amended theorem applied at concrete inputs — a name
with an embedded semicolon is rejected, a plain name is accepted. -/
theorem c1_validator_amended_witness :
    validate_package_name (PyVal.str ('b' :: 'a' :: 'd' :: ';' :: 'x' :: [])) = false ∧
    validate_package_name (PyVal.str ('g' :: 'i' :: 't' :: [])) = true := by
  constructor
  · exact c1_validator_amended.2.1 _ ';' (by decide) (by decide)
  · exact (c1_validator_amended.1 (PyVal.str ('g' :: 'i' :: 't' :: []))).mpr
      ⟨'g' :: 'i' :: 't' :: [], rfl, by decide, by decide⟩

/-- C3: for an already validated name the backends are tried in the
fixed order dpkg, rpm, apk, yum; the first backend whose probe completes
(no missing executable, no timeout) fixes the verdict — exit code 0
means present, any other exit code means missing — with no later backend
attempted; and when all four are unavailable the verdict is missing. -/
theorem c3_backend_order (h : Host) (s : List Char)
    (hv : validate_package_name (PyVal.str s) = true) :
    (∀ pre b post code, backendOrder = pre ++ b :: post →
        (∀ bp ∈ pre, isUnavailable (h bp (pyStrip s)) = true) →
        h b (pyStrip s) = ProbeResult.completed code →
        check_system_package h (PyVal.str s)
          = (Except.ok (code == 0), (pre ++ [b]).map (fun bb => (bb, pyStrip s)))) ∧
    ((∀ b ∈ backendOrder, isUnavailable (h b (pyStrip s)) = true) →
        check_system_package h (PyVal.str s)
          = (Except.ok false, backendOrder.map (fun bb => (bb, pyStrip s)))) := by
  constructor
  · intro pre b post code hsplit hpre hb
    rw [check_system_package_valid h s hv, hsplit,
        runBackends_skip_unavail h (pyStrip s) pre (b :: post) hpre]
    simp [runBackends, hb, List.map_append]
  · intro hall
    rw [check_system_package_valid h s hv]
    have hr := runBackends_skip_unavail h (pyStrip s) backendOrder [] hall
    rw [List.append_nil] at hr
    rw [hr]
    simp [runBackends]

/-- C3 witness: on a host whose dpkg is absent and whose rpm answers
exit code 0, the check returns present having probed exactly dpkg then
rpm. -/
theorem c3_backend_order_witness :
    check_system_package hostRpmInstalled (PyVal.str ('g' :: 'i' :: 't' :: []))
      = (Except.ok true,
         [(Backend.dpkg, pyStrip ('g' :: 'i' :: 't' :: [])),
          (Backend.rpm, pyStrip ('g' :: 'i' :: 't' :: []))]) := by
  have h := (c3_backend_order hostRpmInstalled ('g' :: 'i' :: 't' :: []) (by decide)).1
      [Backend.dpkg] Backend.rpm [Backend.apk, Backend.yum] 0 rfl (by decide) rfl
  simpa using h

/-- C4: the probe outcome of a timed-out backend is treated as backend
unavailable in both variants (the cascade goes on to the next backend
and, with every backend unavailable, ends in a missing verdict), and in
the synchronous variant `subprocess.run` kills and reaps the child — but
in the asynchronous variant `asyncio.wait_for` only cancels the
`process.wait()` task, so the child process is still running after the
probe resolves, contradicting the claim. -/
theorem c4_async_timeout_orphan :
    asyncProbeChildRunningAfter ProbeResult.timedOut = true ∧
    syncProbeChildRunningAfter ProbeResult.timedOut = false ∧
    (check_system_package hostDpkgHangs (PyVal.str ('g' :: 'i' :: 't' :: []))).1
      = Except.ok false ∧
    (check_system_package hostDpkgHangs (PyVal.str ('g' :: 'i' :: 't' :: []))).2.map Prod.fst
      = backendOrder := by
  exact ⟨rfl, rfl, rfl, rfl⟩

/-- C5 counterexample: on a host whose dpkg spawn raises
`PermissionError` — an exception the code does not catch — the check
raises to its caller instead of treating the backend as unavailable. -/
theorem c5_check_counterexample :
    (check_system_package hostDpkgPermDenied (PyVal.str ('g' :: 'i' :: 't' :: []))).1
      = Except.error PyExn.permissionError := rfl

/-- C5 (amended): the check never raises as long as no probe raises an
exception other than `FileNotFoundError` or the timeout — those two are
swallowed and the cascade continues — but any other exception raised
while spawning or waiting propagates to the caller at once, aborting the
cascade at that backend. -/
theorem c5_check_amended :
    (∀ (h : Host) (v : PyVal),
        (∀ b n e, h b n ≠ ProbeResult.raised e) →
        exceptIsOk (check_system_package h v).1 = true) ∧
    (∀ (h : Host) (s : List Char) (pre : List Backend) (b : Backend)
        (post : List Backend) (e : PyExn),
        validate_package_name (PyVal.str s) = true →
        backendOrder = pre ++ b :: post →
        (∀ bp ∈ pre, isUnavailable (h bp (pyStrip s)) = true) →
        h b (pyStrip s) = ProbeResult.raised e →
        check_system_package h (PyVal.str s)
          = (Except.error e, (pre ++ [b]).map (fun bb => (bb, pyStrip s)))) := by
  constructor
  · intro h v hnr
    cases v with
    | str s =>
      by_cases hv : validate_package_name (PyVal.str s) = true
      · rw [check_system_package_valid h s hv]
        exact runBackends_isOk_of_no_raise h (pyStrip s) (fun b e => hnr b (pyStrip s) e) backendOrder
      · simp [check_system_package, Bool.not_eq_true] at hv ⊢
        simp [hv, exceptIsOk]
    | int n => rfl
    | bool b => rfl
    | none => rfl
  · intro h s pre b post e hv hsplit hpre hb
    rw [check_system_package_valid h s hv, hsplit,
        runBackends_skip_unavail h (pyStrip s) pre (b :: post) hpre]
    simp [runBackends, hb, List.map_append]

/-- C5 witness: the amended theorem at concrete hosts — with no package
manager installed the check returns normally, and with a
permission-denied dpkg it propagates `PermissionError` from the very
first backend. -/
theorem c5_check_amended_witness :
    exceptIsOk (check_system_package hostAllMissing (PyVal.str ('g' :: 'i' :: 't' :: []))).1
      = true ∧
    check_system_package hostDpkgPermDenied (PyVal.str ('g' :: 'i' :: 't' :: []))
      = (Except.error PyExn.permissionError,
         [(Backend.dpkg, pyStrip ('g' :: 'i' :: 't' :: []))]) := by
  constructor
  · exact c5_check_amended.1 hostAllMissing _ (fun b n e => by cases b <;> simp [hostAllMissing])
  · have h := c5_check_amended.2 hostDpkgPermDenied ('g' :: 'i' :: 't' :: [])
      [] Backend.dpkg [Backend.rpm, Backend.apk, Backend.yum] PyExn.permissionError
      (by decide) rfl (by decide) rfl
    simpa using h

/-- C10: both check operations re-validate their input themselves; on any
value the validator rejects, `check_system_package` returns `False`
without attempting any subprocess invocation and `check_python_package`
returns `False` without querying the module-resolution mechanism. -/
theorem c10_checks_revalidate (h : Host) (res : Resolver) (v : PyVal)
    (hv : validate_package_name v = false) :
    check_system_package h v = (Except.ok false, []) ∧
    check_python_package res v = (Except.ok false, false) := by
  cases v with
  | str s =>
    constructor
    · simp [check_system_package, hv]
    · simp [check_python_package, hv]
  | int n => exact ⟨rfl, rfl⟩
  | bool b => exact ⟨rfl, rfl⟩
  | none => exact ⟨rfl, rfl⟩

/-- C2: an input entry that fails validation is placed in the
invalid-system list of any produced report and never appears in the
missing-system list; moreover every name argument of every attempted
subprocess invocation is itself a validator-passing token, so the
offending entry is never passed to a subprocess — in both the
synchronous and the asynchronous checker. -/
theorem c2_invalid_never_spawned (h : Host) (res : Resolver) (sysv pyv : PyArg)
    (p : PyVal) (hmem : p ∈ normalizeInput sysv)
    (hinv : validate_package_name p = false) :
    (∀ r, (verify_dependencies h res sysv pyv).1 = Except.ok r →
        p ∈ r.invalid_sys ∧ p ∉ r.missing_sys) ∧
    (∀ r, (async_verify_dependencies h res sysv pyv).1 = Except.ok r →
        p ∈ r.invalid_sys ∧ p ∉ r.missing_sys) ∧
    (∀ e ∈ (verify_dependencies h res sysv pyv).2,
        validate_package_name (PyVal.str e.2) = true ∧ PyVal.str e.2 ≠ p) ∧
    (∀ e ∈ (async_verify_dependencies h res sysv pyv).2,
        validate_package_name (PyVal.str e.2) = true ∧ PyVal.str e.2 ≠ p) := by
  have hmem_inv : p ∈ (normalizeInput sysv).filter (fun q => !validate_package_name q) :=
    List.mem_filter.mpr ⟨hmem, by simp [hinv]⟩
  have hnotvalid : p ∉ (normalizeInput sysv).filter validate_package_name := by
    intro hp
    have hv2 := (List.mem_filter.mp hp).2
    rw [hinv] at hv2
    cases hv2
  refine ⟨?_, ?_, ?_, ?_⟩
  · intro r hr
    obtain ⟨hcs, _, hinvs, _⟩ := verify_dependencies_fst_ok h res sysv pyv r hr
    refine ⟨by rw [hinvs]; exact hmem_inv, ?_⟩
    intro hpmiss
    have hfl := checkListSys_ok_filter h _ _ hcs
    rw [hfl] at hpmiss
    exact hnotvalid ((List.filter_sublist _).subset hpmiss)
  · intro r hr
    obtain ⟨hms, _, hinvs, _⟩ := async_verify_fst_ok h res sysv pyv r hr
    refine ⟨by rw [hinvs]; exact hmem_inv, ?_⟩
    intro hpmiss
    rw [hms] at hpmiss
    exact hnotvalid ((List.filter_sublist _).subset hpmiss)
  · intro e he
    rw [verify_dependencies_snd] at he
    obtain ⟨q, _, hqe⟩ := checkListSys_trace_mem h _ e he
    have hval := check_trace_validated h q e hqe
    refine ⟨hval, ?_⟩
    intro heq
    rw [heq, hinv] at hval
    cases hval
  · intro e he
    obtain ⟨q, _, hqe⟩ := async_verify_snd_mem h res sysv pyv e he
    have hval := check_trace_validated h q e hqe
    refine ⟨hval, ?_⟩
    intro heq
    rw [heq, hinv] at hval
    cases hval

/-- C2 witness: the specification's own example — the batch containing
only the name `bad;rm -rf /` yields a report with that name in
`invalid_sys` and an empty `missing_sys`. -/
theorem c2_invalid_never_spawned_witness :
    PyVal.str "bad;rm -rf /".data
        ∈ (Report.mk [] [] [PyVal.str "bad;rm -rf /".data] []).invalid_sys ∧
    PyVal.str "bad;rm -rf /".data
        ∉ (Report.mk [] [] [PyVal.str "bad;rm -rf /".data] []).missing_sys := by
  exact (c2_invalid_never_spawned hostAllMissing resolverNone
      (PyArg.list [PyVal.str "bad;rm -rf /".data]) (PyArg.list [])
      (PyVal.str "bad;rm -rf /".data) (by decide) (by decide)).1
      (Report.mk [] [] [PyVal.str "bad;rm -rf /".data] []) rfl

/-- C6 counterexample: in the synchronous checker a `PermissionError`
raised by the dpkg probe of one valid name propagates out of
`verify_dependencies`, aborting the whole batch instead of recording the
name as missing. -/
theorem c6_sync_abort_counterexample :
    (verify_dependencies hostDpkgPermDenied resolverNone
        (PyArg.list [PyVal.str ('g' :: 'i' :: 't' :: [])]) (PyArg.list [])).1
      = Except.error PyExn.permissionError := rfl

/-- C6 (amended): in the asynchronous checker no failure of an
individual system-package check aborts the batch — a check whose result
is an exception or `False` has its name recorded in the missing list —
but in the synchronous checker an uncaught exception from one package's
check propagates out of `verify_dependencies` and aborts the batch. -/
theorem c6_batch_amended :
    (∀ (h : Host) (res : Resolver) (sysv pyv : PyArg) (r : Report),
        (async_verify_dependencies h res sysv pyv).1 = Except.ok r →
        ∀ p ∈ (normalizeInput sysv).filter validate_package_name,
          isOkTrue (check_system_package h p).1 = false → p ∈ r.missing_sys) ∧
    (∀ (h : Host) (res : Resolver) (sysv pyv : PyArg) (pre : List PyVal)
        (p : PyVal) (post : List PyVal) (e : PyExn),
        (normalizeInput sysv).filter validate_package_name = pre ++ p :: post →
        (∀ q ∈ pre, exceptIsOk (check_system_package h q).1 = true) →
        (check_system_package h p).1 = Except.error e →
        (verify_dependencies h res sysv pyv).1 = Except.error e) := by
  constructor
  · intro h res sysv pyv r hr p hp hfail
    obtain ⟨hms, _, _, _⟩ := async_verify_fst_ok h res sysv pyv r hr
    rw [hms]
    exact List.mem_filter.mpr ⟨hp, by simp [hfail]⟩
  · intro h res sysv pyv pre p post e hsplit hpre hp
    apply verify_dependencies_fst_error
    rw [hsplit]
    exact checkListSys_error_at h pre p post e hpre hp

/-- C6 witness: both amended halves at concrete inputs — the
asynchronous checker records the permission-denied package as missing,
the synchronous checker propagates the exception. -/
theorem c6_batch_amended_witness :
    PyVal.str ('g' :: 'i' :: 't' :: [])
        ∈ (Report.mk [PyVal.str ('g' :: 'i' :: 't' :: [])] [] [] []).missing_sys ∧
    (verify_dependencies hostDpkgPermDenied resolverNone
        (PyArg.list [PyVal.str ('n' :: 'm' :: 'a' :: 'p' :: [])]) (PyArg.list [])).1
      = Except.error PyExn.permissionError := by
  constructor
  · exact c6_batch_amended.1 hostDpkgPermDenied resolverNone
      (PyArg.list [PyVal.str ('g' :: 'i' :: 't' :: [])]) (PyArg.list [])
      (Report.mk [PyVal.str ('g' :: 'i' :: 't' :: [])] [] [] []) rfl
      (PyVal.str ('g' :: 'i' :: 't' :: [])) (by decide) rfl
  · exact c6_batch_amended.2 hostDpkgPermDenied resolverNone
      (PyArg.list [PyVal.str ('n' :: 'm' :: 'a' :: 'p' :: [])]) (PyArg.list [])
      [] (PyVal.str ('n' :: 'm' :: 'a' :: 'p' :: [])) [] PyExn.permissionError
      (by decide) (fun q hq => absurd hq (List.not_mem_nil q)) rfl

/-- C7: `verify_dependencies` tolerates malformed input in both
variants: a non-list argument is handled exactly like an empty list, and
a batch whose entries all fail validation produces — without raising — a
report with empty missing lists and the invalid entries routed, in
input order, to the invalid lists, with no subprocess attempted. -/
theorem c7_verify_input_tolerance :
    (∀ (h : Host) (res : Resolver) (v w : PyArg), isList v = false →
        verify_dependencies h res v w = verify_dependencies h res (PyArg.list []) w ∧
        async_verify_dependencies h res v w
          = async_verify_dependencies h res (PyArg.list []) w) ∧
    (∀ (h : Host) (res : Resolver) (v w : PyArg), isList w = false →
        verify_dependencies h res v w = verify_dependencies h res v (PyArg.list []) ∧
        async_verify_dependencies h res v w
          = async_verify_dependencies h res v (PyArg.list [])) ∧
    (∀ (h : Host) (res : Resolver) (sysv pyv : PyArg),
        (∀ p ∈ normalizeInput sysv, validate_package_name p = false) →
        (∀ p ∈ normalizeInput pyv, validate_package_name p = false) →
        verify_dependencies h res sysv pyv
          = (Except.ok (Report.mk [] [] (normalizeInput sysv) (normalizeInput pyv)), []) ∧
        async_verify_dependencies h res sysv pyv
          = (Except.ok (Report.mk [] [] (normalizeInput sysv) (normalizeInput pyv)), [])) := by
  refine ⟨?_, ?_, ?_⟩
  · intro h res v w hv
    cases v with
    | list xs => simp [isList] at hv
    | scalar val => exact ⟨rfl, rfl⟩
  · intro h res v w hw
    cases w with
    | list xs => simp [isList] at hw
    | scalar val => exact ⟨rfl, rfl⟩
  · intro h res sysv pyv hs hp
    have h1 : (normalizeInput sysv).filter validate_package_name = [] :=
      List.filter_eq_nil_iff.mpr (fun a ha => by simp [hs a ha])
    have h2 : (normalizeInput pyv).filter validate_package_name = [] :=
      List.filter_eq_nil_iff.mpr (fun a ha => by simp [hp a ha])
    have h3 : (normalizeInput sysv).filter (fun q => !validate_package_name q)
        = normalizeInput sysv :=
      List.filter_eq_self.mpr (fun a ha => by simp [hs a ha])
    have h4 : (normalizeInput pyv).filter (fun q => !validate_package_name q)
        = normalizeInput pyv :=
      List.filter_eq_self.mpr (fun a ha => by simp [hp a ha])
    constructor
    · unfold verify_dependencies
      simp only [h1, h2, h3, h4]
      rfl
    · unfold async_verify_dependencies
      simp only [h1, h2, h3, h4]
      rfl

/-- C7 witness: a scalar (non-list) argument acts as an empty batch, and
a batch of a number and a malformed name yields a clean report routing
both to the invalid list. -/
theorem c7_verify_input_tolerance_witness :
    verify_dependencies hostAllMissing resolverNone (PyArg.scalar PyVal.none) (PyArg.list [])
      = verify_dependencies hostAllMissing resolverNone (PyArg.list []) (PyArg.list []) ∧
    verify_dependencies hostAllMissing resolverNone
        (PyArg.list [PyVal.int 5, PyVal.str ('b' :: 'a' :: 'd' :: ';' :: [])])
        (PyArg.list [])
      = (Except.ok (Report.mk [] []
          [PyVal.int 5, PyVal.str ('b' :: 'a' :: 'd' :: ';' :: [])] []), []) := by
  constructor
  · exact (c7_verify_input_tolerance.1 hostAllMissing resolverNone
      (PyArg.scalar PyVal.none) (PyArg.list []) rfl).1
  · exact (c7_verify_input_tolerance.2.2 hostAllMissing resolverNone
      (PyArg.list [PyVal.int 5, PyVal.str ('b' :: 'a' :: 'd' :: ';' :: [])])
      (PyArg.list []) (by decide) (by decide)).1

/-- C8: the report of any batch mirrors the input: each missing list is
the order- and duplicate-preserving filter of the validated input by
failed checks (filtered input order, not completion order), the invalid
lists are the order-preserving filters of the raw input, both
system-side lists are sublists of the raw input, and a valid name
occurring k times whose check does not succeed appears k times in the
missing list.  Stated for the asynchronous checker, whose gather loop
indexes results back to input positions. -/
theorem c8_order_and_duplicates (h : Host) (res : Resolver) (sysv pyv : PyArg)
    (r : Report) (hr : (async_verify_dependencies h res sysv pyv).1 = Except.ok r) :
    r.missing_sys = ((normalizeInput sysv).filter validate_package_name).filter
        (fun p => !isOkTrue (check_system_package h p).1) ∧
    r.missing_py = ((normalizeInput pyv).filter validate_package_name).filter
        (fun p => !isOkTrue (check_python_package res p).1) ∧
    r.invalid_sys = (normalizeInput sysv).filter (fun q => !validate_package_name q) ∧
    r.invalid_py = (normalizeInput pyv).filter (fun q => !validate_package_name q) ∧
    r.missing_sys.Sublist (normalizeInput sysv) ∧
    r.invalid_sys.Sublist (normalizeInput sysv) ∧
    (∀ p, validate_package_name p = true →
        isOkTrue (check_system_package h p).1 = false →
        r.missing_sys.count p = (normalizeInput sysv).count p) := by
  obtain ⟨hms, hmp, hinvs, hinvp⟩ := async_verify_fst_ok h res sysv pyv r hr
  have hmp2 := checkListPy_ok_filter res _ _ hmp
  refine ⟨hms, hmp2, hinvs, hinvp, ?_, ?_, ?_⟩
  · rw [hms]
    exact (List.filter_sublist _).trans (List.filter_sublist _)
  · rw [hinvs]
    exact List.filter_sublist _
  · intro p hval hfail
    rw [hms, List.count_filter (by simp [hfail]), List.count_filter (by simp [hval])]

/-- C8 witness: a batch holding the valid name git twice around an
invalid name, on a host with no package managers: git is reported
missing twice, in order, and the invalid name once. -/
theorem c8_order_and_duplicates_witness :
    (Report.mk [PyVal.str ('g' :: 'i' :: 't' :: []), PyVal.str ('g' :: 'i' :: 't' :: [])]
        [] [PyVal.str ('b' :: 'a' :: 'd' :: ';' :: [])] []).missing_sys.count
        (PyVal.str ('g' :: 'i' :: 't' :: []))
      = (normalizeInput (PyArg.list [PyVal.str ('g' :: 'i' :: 't' :: []),
          PyVal.str ('b' :: 'a' :: 'd' :: ';' :: []),
          PyVal.str ('g' :: 'i' :: 't' :: [])])).count
          (PyVal.str ('g' :: 'i' :: 't' :: [])) := by
  exact (c8_order_and_duplicates hostAllMissing resolverNone
      (PyArg.list [PyVal.str ('g' :: 'i' :: 't' :: []),
        PyVal.str ('b' :: 'a' :: 'd' :: ';' :: []),
        PyVal.str ('g' :: 'i' :: 't' :: [])]) (PyArg.list [])
      (Report.mk [PyVal.str ('g' :: 'i' :: 't' :: []), PyVal.str ('g' :: 'i' :: 't' :: [])]
        [] [PyVal.str ('b' :: 'a' :: 'd' :: ';' :: [])] []) rfl).2.2.2.2.2.2
      (PyVal.str ('g' :: 'i' :: 't' :: [])) (by decide) rfl

lemma sum_duration_replicate (h : Host) (d : Dur) (p : PyVal) :
    ∀ n : Nat, (List.replicate n p).foldr (fun q acc => checkSysDuration h d q + acc) 0
      = n * checkSysDuration h d p := by
  intro n
  induction n with
  | zero => simp
  | succ k ih =>
    rw [List.replicate_succ, List.foldr_cons, ih, Nat.succ_mul, Nat.add_comm]

lemma max_duration_replicate (h : Host) (d : Dur) (p : PyVal) :
    ∀ n : Nat, (List.replicate (n + 1) p).foldr (fun q acc => max (checkSysDuration h d q) acc) 0
      = checkSysDuration h d p := by
  intro n
  induction n with
  | zero => simp
  | succ k ih =>
    rw [List.replicate_succ, List.foldr_cons, ih, Nat.max_self]

/-- C9 counterexample: with one hanging backend, a three-package batch
costs 30 time units in the synchronous checker — three times the 10
units of a single package's check, growing with the batch size — while
the asynchronous checker resolves the same batch in the 10 units of its
slowest member, the bound the claim asserts. -/
theorem c9_sync_serial_counterexample :
    syncBatchSysDuration hostDpkgHangs durDpkgHangs
        (PyArg.list [PyVal.str ('a' :: 'a' :: []), PyVal.str ('b' :: 'b' :: []),
          PyVal.str ('c' :: 'c' :: [])]) = 30 ∧
    asyncBatchSysDuration hostDpkgHangs durDpkgHangs
        (PyArg.list [PyVal.str ('a' :: 'a' :: []), PyVal.str ('b' :: 'b' :: []),
          PyVal.str ('c' :: 'c' :: [])]) = 10 ∧
    checkSysDuration hostDpkgHangs durDpkgHangs (PyVal.str ('a' :: 'a' :: [])) = 10 ∧
    ¬ (30 : Nat) ≤ 10 := by
  exact ⟨by decide, by decide, by decide, by decide⟩

/-- C9 (amended): only the asynchronous checker runs the checks of
different packages concurrently with each other: for a batch of n copies
of one validated package, the asynchronous system pass takes the
duration of a single check regardless of n, while the synchronous pass
takes n times that duration — its wall-clock grows linearly with the
batch size. -/
theorem c9_concurrency_amended (h : Host) (d : Dur) (p : PyVal)
    (hv : validate_package_name p = true) :
    (∀ n : Nat, syncBatchSysDuration h d (PyArg.list (List.replicate n p))
        = n * checkSysDuration h d p) ∧
    (∀ n : Nat, asyncBatchSysDuration h d (PyArg.list (List.replicate (n + 1) p))
        = checkSysDuration h d p) := by
  have hfilter : ∀ n : Nat,
      (List.replicate n p).filter validate_package_name = List.replicate n p := by
    intro n
    exact List.filter_eq_self.mpr
      (fun a ha => by rw [List.eq_of_mem_replicate ha]; simp [hv])
  constructor
  · intro n
    unfold syncBatchSysDuration
    show (List.filter validate_package_name (List.replicate n p)).foldr _ 0 = _
    rw [hfilter]
    exact sum_duration_replicate h d p n
  · intro n
    unfold asyncBatchSysDuration
    show (List.filter validate_package_name (List.replicate (n + 1) p)).foldr _ 0 = _
    rw [hfilter]
    exact max_duration_replicate h d p n

/-- C9 witness: the amended theorem at a two-package batch on the host
with the hanging dpkg. -/
theorem c9_concurrency_amended_witness :
    syncBatchSysDuration hostDpkgHangs durDpkgHangs
        (PyArg.list (List.replicate 2 (PyVal.str ('g' :: 'i' :: 't' :: []))))
      = 2 * checkSysDuration hostDpkgHangs durDpkgHangs (PyVal.str ('g' :: 'i' :: 't' :: [])) ∧
    asyncBatchSysDuration hostDpkgHangs durDpkgHangs
        (PyArg.list (List.replicate 2 (PyVal.str ('g' :: 'i' :: 't' :: []))))
      = checkSysDuration hostDpkgHangs durDpkgHangs (PyVal.str ('g' :: 'i' :: 't' :: [])) := by
  exact ⟨(c9_concurrency_amended hostDpkgHangs durDpkgHangs _ (by decide)).1 2,
         (c9_concurrency_amended hostDpkgHangs durDpkgHangs _ (by decide)).2 1⟩

/-- C10 witness: the theorem at a name with an embedded semicolon, on a
host with no package managers and an empty resolver. -/
theorem c10_checks_revalidate_witness :
    validate_package_name (PyVal.str ('b' :: 'a' :: 'd' :: ';' :: 'x' :: [])) = false ∧
    check_system_package hostAllMissing (PyVal.str ('b' :: 'a' :: 'd' :: ';' :: 'x' :: []))
      = (Except.ok false, []) ∧
    check_python_package resolverNone (PyVal.str ('b' :: 'a' :: 'd' :: ';' :: 'x' :: []))
      = (Except.ok false, false) := by
  refine ⟨by decide, ?_⟩
  exact c10_checks_revalidate hostAllMissing resolverNone _ (by decide)
